import Mathlib

/-!
Shallow embedding of the Farmers balance-audit engine (`app.py`).

The source reads a headerless tabular export into a pandas DataFrame and
derives, in order: a row classifier (account-header / opening-balance /
posting pattern tests), a reference normalizer, a ledger builder
(`procesar_contpaq_engine`), a per-account reconciliation
(`analizar_saldos` with `clasificar`), and per-(account, reference)
summaries with three classification filters (`facturas_pend`,
`pagos_huerfanos`, `pagos_excedentes`) plus the sentinel-reference
subset `movs_sin_referencia`.

Cells are modelled as `Option String` (a CSV cell; `none` is a missing
cell, pandas `NaN`). Money is `ℚ`. Regex use in the source is limited to
a handful of fixed patterns, embedded here as deterministic scanners
(the patterns involved admit no backtracking ambiguity). Character
classes are modelled over ASCII, which covers every value the patterns
are applied to. Presentation-only derived columns (`cliente`, parsed
dates, chart data) are not modelled: no analysed behaviour reads them.
-/

namespace AuditorSaldos

/-- Python `\s` (ASCII part), used by the embedded regex scanners and
by the model of `str.strip()`. -/
def isPySpace (c : Char) : Bool :=
  c == ' ' || c == '\t' || c == '\n' || c == '\r' || c == '\x0b' || c == '\x0c'

/-- Python `str.strip()`: drop leading and trailing whitespace. -/
def pyStrip (s : String) : String :=
  String.mk (((s.toList.dropWhile isPySpace).reverse.dropWhile isPySpace).reverse)

/-- Python `str.upper()` (ASCII letters; no analysed input holds cased
non-ASCII letters). -/
def pyUpper (s : String) : String :=
  String.mk (s.toList.map Char.toUpper)

/-- Numeric value of a digit run. -/
def natOfDigits (cs : List Char) : ℕ :=
  cs.foldl (fun n c => 10 * n + (c.toNat - 48)) 0

/-- Unsigned decimal literal: digits, optionally a dot and digits. -/
def parseUnsignedQ (cs : List Char) : Option ℚ :=
  let ip := cs.takeWhile Char.isDigit
  let rest := cs.dropWhile Char.isDigit
  match rest with
  | [] => if ip.isEmpty then none else some (natOfDigits ip)
  | '.' :: fr =>
      if fr.all Char.isDigit && !(ip.isEmpty && fr.isEmpty) then
        some ((natOfDigits ip : ℚ) + (natOfDigits fr : ℚ) / ((10 : ℚ) ^ fr.length))
      else none
  | _ => none

/-- `pd.to_numeric(·, errors="coerce")` on one cell text: an optionally
signed decimal literal, `none` when unparseable. -/
def parseDecimalQ (s : String) : Option ℚ :=
  match (pyStrip s).toList with
  | '-' :: cs => (parseUnsignedQ cs).map (fun q => -q)
  | cs => parseUnsignedQ cs

/-- One raw export row (`raw`), fixed column positions 0..7. -/
structure RawRow where
  c0 : Option String
  c1 : Option String
  c2 : Option String
  c3 : Option String
  c4 : Option String
  c5 : Option String
  c6 : Option String
  c7 : Option String
deriving DecidableEq, Repr

/-- `raw.astype(str)` on one cell: pandas renders a missing value as
the text `"nan"`. -/
def cellStr : Option String → String
  | none => "nan"
  | some s => s

/-- `pd.to_numeric` on one raw cell: missing stays missing. -/
def toNumericCell (c : Option String) : Option ℚ :=
  c.bind parseDecimalQ

/-- `raw_str[0].str.match(r"^\d{3}-\d{3}-\d{3}")`. -/
def matchCuenta (s : String) : Bool :=
  match s.toList with
  | a :: b :: c :: '-' :: d :: e :: f :: '-' :: g :: h :: i :: _ =>
      a.isDigit && b.isDigit && c.isDigit && d.isDigit && e.isDigit &&
      f.isDigit && g.isDigit && h.isDigit && i.isDigit
  | _ => false

/-- `raw_str[1].str.match(r"^\d{4}-\d{2}-\d{2}")`. -/
def matchFecha (s : String) : Bool :=
  match s.toList with
  | a :: b :: c :: d :: '-' :: e :: f :: '-' :: g :: h :: _ =>
      a.isDigit && b.isDigit && c.isDigit && d.isDigit &&
      e.isDigit && f.isDigit && g.isDigit && h.isDigit
  | _ => false

/-- Whether `pat` occurs at the head of `s`. -/
def matchesAt : List Char → List Char → Bool
  | [], _ => true
  | _ :: _, [] => false
  | p :: ps, c :: cs => p == c && matchesAt ps cs

/-- Whether `pat` occurs anywhere in `s` (substring test). -/
def containsSeq (pat : List Char) : List Char → Bool
  | [] => matchesAt pat []
  | c :: cs => matchesAt pat (c :: cs) || containsSeq pat cs

/-- `raw_str[3].str.contains("Saldo Inicial", case=False)`. -/
def containsSaldoIni (s : String) : Bool :=
  containsSeq "SALDO INICIAL".toList (pyUpper s).toList

/-- Row classifier test `is_cuenta` on a raw row. -/
def isCuenta (r : RawRow) : Bool :=
  matchCuenta (cellStr r.c0)

/-- `re.search(r"F\.?\s*(\d+)", s)`: first `F`, an optional dot, then
whitespace, then a digit run; scans left to right. -/
def searchFNum : List Char → Option String
  | [] => none
  | 'F' :: rest =>
      let r1 := match rest with
        | '.' :: t => t
        | _ => rest
      let ds := (r1.dropWhile isPySpace).takeWhile Char.isDigit
      if ds.isEmpty then searchFNum rest else some (String.mk ds)
  | _ :: rest => searchFNum rest

/-- `re.search(r"A\s*-\s*(\d+)", s)`: first `A` followed (through
whitespace) by a hyphen and a digit run; scans left to right. -/
def searchADash : List Char → Option String
  | [] => none
  | 'A' :: rest =>
      (match rest.dropWhile isPySpace with
      | '-' :: r2 =>
          let ds := (r2.dropWhile isPySpace).takeWhile Char.isDigit
          if ds.isEmpty then searchADash rest else some (String.mk ds)
      | _ => searchADash rest)
  | _ :: rest => searchADash rest

/-- Maximal digit runs of a character list, in order (`re.findall(r"\d+", s)`);
`acc` holds the digits of the run in progress, reversed. -/
def digitRunsGo : List Char → List Char → List String
  | [], acc => if acc.isEmpty then [] else [String.mk acc.reverse]
  | c :: cs, acc =>
      if c.isDigit then digitRunsGo cs (c :: acc)
      else if acc.isEmpty then digitRunsGo cs []
      else String.mk acc.reverse :: digitRunsGo cs []

/-- `re.findall(r"\d+", s)`. -/
def digitRuns (cs : List Char) : List String :=
  digitRunsGo cs []

/-- `normalizar_referencia_base`: `None` and blank-after-strip map to
`None`; otherwise uppercase and try, in order, the payment pattern
`F\.?\s*(\d+)`, the invoice pattern `A\s*-\s*(\d+)`, the last digit run,
and finally the cleaned string itself. -/
def normalizar_referencia_base (ref : Option String) : Option String :=
  match ref with
  | none => none
  | some r =>
      if pyStrip r = "" then none
      else
        let s := pyUpper (pyStrip r)
        match searchFNum s.toList with
        | some d => some d
        | none =>
            match searchADash s.toList with
            | some d => some d
            | none =>
                match (digitRuns s.toList).getLast? with
                | some d => some d
                | none => some s

/-- The fill value of line 100 of the source. -/
def SENTINEL : String := "⚠️ SIN REFERENCIA CAPTURADA"

/-- `fillna` with the sentinel on one cell of the normalized-reference
column. -/
def fillnaSent : Option String → Option String
  | none => some SENTINEL
  | some s => some s

/-- A raw row carrying its forward-filled `meta_codigo` / `meta_nombre`. -/
structure TaggedRow where
  row : RawRow
  meta_codigo : Option String
  meta_nombre : Option String
deriving DecidableEq, Repr

/-- One `ffill` step: a fresh non-missing value supersedes the carried
one, a missing value keeps it. -/
def ffillStep (cur v : Option String) : Option String :=
  match v with
  | none => cur
  | some s => some s

/-- Lines 71-75 of the source: `np.where(is_cuenta, df[0], nan).ffill()`
and the same for `df[2]`, realised as a scan carrying the two current
values. -/
def tagRows : Option String → Option String → List RawRow → List TaggedRow
  | _, _, [] => []
  | curC, curN, r :: rs =>
      let c2 := if isCuenta r then ffillStep curC r.c0 else curC
      let n2 := if isCuenta r then ffillStep curN r.c2 else curN
      { row := r, meta_codigo := c2, meta_nombre := n2 } :: tagRows c2 n2 rs

/-- The carried `meta_codigo` after scanning a list of rows. -/
def ffillEndC (c : Option String) (rows : List RawRow) : Option String :=
  rows.foldl (fun cur r => if isCuenta r then ffillStep cur r.c0 else cur) c

/-- The carried `meta_nombre` after scanning a list of rows. -/
def ffillEndN (n : Option String) (rows : List RawRow) : Option String :=
  rows.foldl (fun cur r => if isCuenta r then ffillStep cur r.c2 else cur) n

/-- Lines 77-80: rows whose cell 3 contains "Saldo Inicial" and whose
cell 6 parses contribute `(meta_codigo, value)` to `saldos_dict`;
`to_dict` lets a later duplicate key overwrite an earlier one. -/
def saldosDict (trs : List TaggedRow) : List (Option String × ℚ) :=
  trs.filterMap (fun tr =>
    if containsSaldoIni (cellStr tr.row.c3) then
      match toNumericCell tr.row.c6 with
      | some q => some (tr.meta_codigo, q)
      | none => none
    else none)

/-- Dict lookup with last-entry-wins, matching `to_dict` overwrite
order; a missing (`NaN`) code matches no key. -/
def lookupLast (c : String) : List (Option String × ℚ) → Option ℚ
  | [] => none
  | (k, v) :: rest =>
      match lookupLast c rest with
      | some v2 => some v2
      | none => if k == some c then some v else none

/-- Line 81: `df["meta_codigo"].map(saldos_dict).fillna(0)` on one row. -/
def mapSaldoInicial (dict : List (Option String × ℚ)) : Option String → ℚ
  | none => 0
  | some c => (lookupLast c dict).getD 0

/-- One posting (`movs` row) with the columns the analysis reads. -/
structure Mov where
  meta_codigo : Option String
  meta_nombre : Option String
  meta_saldo_inicial : ℚ
  referencia : Option String
  referencia_norm : Option String
  cargos : ℚ
  abonos : ℚ
  saldo_acumulado : ℚ
  saldo_neto : ℚ
  fecha_raw : Option String
deriving DecidableEq, Repr

/-- Lines 87-102: column mapping, numeric coercion with `fillna(0)`,
reference normalization with the sentinel fill, and `saldo_neto`. -/
def buildMov (dict : List (Option String × ℚ)) (tr : TaggedRow) : Mov :=
  let cargos := (toNumericCell tr.row.c4).getD 0
  let abonos := (toNumericCell tr.row.c5).getD 0
  { meta_codigo := tr.meta_codigo
    meta_nombre := tr.meta_nombre
    meta_saldo_inicial := mapSaldoInicial dict tr.meta_codigo
    referencia := tr.row.c3
    referencia_norm := fillnaSent (normalizar_referencia_base tr.row.c3)
    cargos := cargos
    abonos := abonos
    saldo_acumulado := (toNumericCell tr.row.c6).getD 0
    saldo_neto := cargos - abonos
    fecha_raw := tr.row.c1 }

/-- The tagged row table of `procesar_contpaq_engine`. -/
def taggedOf (rows : List RawRow) : List TaggedRow :=
  tagRows none none rows

/-- `saldos_dict` of the engine run. -/
def dictOf (rows : List RawRow) : List (Option String × ℚ) :=
  saldosDict (taggedOf rows)

/-- Lines 83-85 plus the posting construction: `movs = df[is_mov]`. -/
def movsOf (rows : List RawRow) : List Mov :=
  ((taggedOf rows).filter (fun tr => matchFecha (cellStr tr.row.c1))).map
    (buildMov (dictOf rows))

/-- Distinct group keys in order of last occurrence (pandas `groupby`
keys; key order is irrelevant to every analysed property). -/
def dedupKeys {α : Type} [DecidableEq α] : List α → List α
  | [] => []
  | a :: as =>
      let d := dedupKeys as
      if a ∈ d then d else a :: d

/-- `("saldo_acumulado", "last")` within one group. -/
def lastSaldoAcum : List Mov → ℚ
  | [] => 0
  | [m] => m.saldo_acumulado
  | _ :: m :: ms => lastSaldoAcum (m :: ms)

/-- One row of the per-account `resumen` table. -/
structure Resumen where
  meta_codigo : String
  meta_nombre : String
  saldo_final_aux : ℚ
  meta_saldo_inicial : ℚ
deriving DecidableEq, Repr

/-- The `groupby(["meta_codigo", "meta_nombre"])` keys; groups with a
missing key are dropped, as pandas does. -/
def resumenKeys (movs : List Mov) : List (String × String) :=
  dedupKeys (movs.filterMap (fun m =>
    match m.meta_codigo, m.meta_nombre with
    | some c, some n => some (c, n)
    | _, _ => none))

/-- Lines 110-116: the per-account summary, with `meta_saldo_inicial`
re-mapped from `saldos_dict` (line 114). -/
def resumenFrom (movs : List Mov) (dict : List (Option String × ℚ)) :
    List Resumen :=
  (resumenKeys movs).map (fun k =>
    { meta_codigo := k.1
      meta_nombre := k.2
      saldo_final_aux := lastSaldoAcum (movs.filter (fun m =>
        m.meta_codigo == some k.1 && m.meta_nombre == some k.2))
      meta_saldo_inicial := (lookupLast k.1 dict).getD 0 })

/-- The `resumen` output of `procesar_contpaq_engine`. -/
def resumenOf (rows : List RawRow) : List Resumen :=
  resumenFrom (movsOf rows) (dictOf rows)

def UMBRAL_TOLERANCIA : ℚ := 1

/-- Lines 132-134: the per-account status. -/
def clasificar (diferencia : ℚ) : String :=
  if |diferencia| ≤ UMBRAL_TOLERANCIA then "🟢 OK"
  else "🔴 Diferencia No Explicada"

/-- Line 125: `movs[movs["referencia_norm"].notna()]`. -/
def vivasOf (movs : List Mov) : List Mov :=
  movs.filter (fun m => m.referencia_norm.isSome)

/-- Line 126: `groupby(["meta_codigo"]).agg(movimientos_netos=("saldo_neto", "sum"))`;
missing-key rows are dropped by the groupby. -/
def saldoFacturas (vivas : List Mov) : List (String × ℚ) :=
  (dedupKeys (vivas.filterMap (fun m => m.meta_codigo))).map (fun c =>
    (c, ((vivas.filter (fun m => m.meta_codigo == some c)).map
      (fun m => m.saldo_neto)).sum))

/-- One row of the reconciliation table `df_audit`. -/
structure Audit where
  meta_codigo : String
  meta_nombre : String
  meta_saldo_inicial : ℚ
  movimientos_netos : ℚ
  saldo_calculado : ℚ
  saldo_final_aux : ℚ
  diferencia : ℚ
  estado : String
deriving DecidableEq, Repr

/-- Lines 124-137: `analizar_saldos`. The left merge on `meta_codigo`
followed by `fillna(0)` is the defaulted lookup. -/
def analizar_saldos (movs : List Mov) (resumen : List Resumen) :
    List Audit :=
  let sf := saldoFacturas (vivasOf movs)
  resumen.map (fun r =>
    let netos := (sf.lookup r.meta_codigo).getD 0
    let saldoCalc := r.meta_saldo_inicial + netos
    let dif := r.saldo_final_aux - saldoCalc
    { meta_codigo := r.meta_codigo
      meta_nombre := r.meta_nombre
      meta_saldo_inicial := r.meta_saldo_inicial
      movimientos_netos := netos
      saldo_calculado := saldoCalc
      saldo_final_aux := r.saldo_final_aux
      diferencia := dif
      estado := clasificar dif })

/-- One row of `resumen_referencias`. -/
structure RefSummary where
  meta_codigo : String
  referencia_norm : String
  total_cargos : ℚ
  total_abonos : ℚ
  saldo_pendiente : ℚ
deriving DecidableEq, Repr

/-- Lines 151 and 156-162: `movs_validos` grouped by
`(meta_codigo, referencia_norm)` with summed amounts. -/
def resumenReferencias (movs : List Mov) : List RefSummary :=
  let valid := movs.filter (fun m => m.referencia_norm.isSome)
  let keys := dedupKeys (valid.filterMap (fun m =>
    match m.meta_codigo, m.referencia_norm with
    | some c, some r => some (c, r)
    | _, _ => none))
  keys.map (fun k =>
    let grp := valid.filter (fun m =>
      m.meta_codigo == some k.1 && m.referencia_norm == some k.2)
    { meta_codigo := k.1
      referencia_norm := k.2
      total_cargos := (grp.map (fun m => m.cargos)).sum
      total_abonos := (grp.map (fun m => m.abonos)).sum
      saldo_pendiente := (grp.map (fun m => m.saldo_neto)).sum })

/-- Lines 164-167: the pending-invoice filter predicate. -/
def esFacturaPend (s : RefSummary) : Bool :=
  decide (s.total_cargos > 0) && decide (s.saldo_pendiente > (0.01 : ℚ))

/-- Lines 169-173: the orphan-payment filter predicate; this is the one
filter that excludes the sentinel key. -/
def esPagoHuerfano (s : RefSummary) : Bool :=
  decide (s.total_cargos = 0) && decide (s.total_abonos > 0) &&
    (s.referencia_norm != SENTINEL)

/-- Lines 175-178: the overpaid filter predicate. -/
def esPagoExcedente (s : RefSummary) : Bool :=
  decide (s.total_cargos > 0) && decide (s.saldo_pendiente < -(0.01 : ℚ))

def facturasPend (rs : List RefSummary) : List RefSummary :=
  rs.filter esFacturaPend

def pagosHuerfanos (rs : List RefSummary) : List RefSummary :=
  rs.filter esPagoHuerfano

def pagosExcedentes (rs : List RefSummary) : List RefSummary :=
  rs.filter esPagoExcedente

/-- Line 154: the sentinel-reference subset of the postings. -/
def movsSinReferencia (movs : List Mov) : List Mov :=
  movs.filter (fun m => m.referencia_norm == some SENTINEL)

/-- Modelled from the spec: the implicit fourth category "settled" of
§3 — a summary falling into none of pending / orphan / overpaid. The
source materialises only the three filtered views. -/
def settledOf (rs : List RefSummary) : List RefSummary :=
  rs.filter (fun s =>
    !(esFacturaPend s) && !(esPagoHuerfano s) && !(esPagoExcedente s))

/-- Per-account aggregate of the Cross-Reference Detector. -/
structure XRefAcct where
  account : String
  total_cargos : ℚ
  total_abonos : ℚ
deriving DecidableEq, Repr

/-- Modelled from the spec: the Cross-Reference Detector of §4.5 is
absent from `app.py`; per its words, group all non-sentinel postings by
(reference key, account) into per-account charge/payment totals, then
keep the reference keys with more than one distinct account, some
account with a positive charge total and some with a positive payment
total, emitting the per-account breakdown. -/
def crossRefDetector (movs : List Mov) : List (String × List XRefAcct) :=
  let nonSent := movs.filter (fun m => m.referencia_norm != some SENTINEL)
  let pairs := dedupKeys (nonSent.filterMap (fun m =>
    match m.referencia_norm, m.meta_codigo with
    | some r, some c => some (r, c)
    | _, _ => none))
  let perAcct : List (String × XRefAcct) := pairs.map (fun k =>
    let grp := nonSent.filter (fun m =>
      m.referencia_norm == some k.1 && m.meta_codigo == some k.2)
    (k.1, { account := k.2
            total_cargos := (grp.map (fun m => m.cargos)).sum
            total_abonos := (grp.map (fun m => m.abonos)).sum }))
  let refs := dedupKeys (perAcct.map (fun p => p.1))
  refs.filterMap (fun r =>
    let accts := (perAcct.filter (fun p => p.1 == r)).map (fun p => p.2)
    let keep : Bool :=
      decide ((dedupKeys (accts.map (fun a => a.account))).length > 1) &&
        accts.any (fun a => decide (a.total_cargos > 0)) &&
        accts.any (fun a => decide (a.total_abonos > 0))
    if keep then some (r, accts) else none)

/-! Concrete sample inputs used by the counterexamples and witnesses. -/

def hdrC1 : RawRow :=
  ⟨some "100-000-000", none, some "CLIENTE X", none, none, none, none, none⟩

/-- A monetary row (charge 500) whose date cell fails the ISO pattern. -/
def badC1 : RawRow :=
  ⟨none, some "SIN FECHA", none, some "ref", some "500", none, none, none⟩

def rowsC1 : List RawRow := [hdrC1, badC1]

def pC1w : RawRow :=
  ⟨none, some "2024-01-05", none, some "A-7", some "50", none, some "50", none⟩

def rowsC1with : List RawRow := [hdrC1, badC1, pC1w]

def rowsC1without : List RawRow := [hdrC1, pC1w]

def hdrC2a : RawRow :=
  ⟨some "104-001-001", none, some "CLIENTE UNO", none, none, none, none, none⟩

def pC2a : RawRow :=
  ⟨none, some "2024-01-10", none, some "Factura de Cliente A-500", some "1000",
    none, some "1000", none⟩

def hdrC2b : RawRow :=
  ⟨some "104-001-002", none, some "CLIENTE DOS", none, none, none, none, none⟩

def pC2b : RawRow :=
  ⟨none, some "2024-01-20", none, some "Ap. Pago Cte. 99 F. 500", none,
    some "1000", some "0", none⟩

def rowsC2 : List RawRow := [hdrC2a, pC2a, hdrC2b, pC2b]

def hdrC3 : RawRow :=
  ⟨some "100-000-000", none, some "CLIENTE X", none, none, none, none, none⟩

/-- A posting with a blank reference cell and a charge of 100. -/
def pC3 : RawRow :=
  ⟨none, some "2024-01-01", none, none, some "100", none, none, none⟩

def rowsC3 : List RawRow := [hdrC3, pC3]

/-- A sentinel-keyed summary with a charge and a positive net. -/
def sPendC3 : RefSummary := ⟨"100-000-000", SENTINEL, 100, 0, 100⟩

def hdrC4 : RawRow :=
  ⟨some "300-000-000", none, some "CLIENTE B", none, none, none, none, none⟩

def obC4 : RawRow :=
  ⟨none, none, none, some "Saldo Inicial", none, none, some "250", none⟩

/-- An account header (with opening balance) and no posting rows. -/
def rowsC4 : List RawRow := [hdrC4, obC4]

def hdrC4w : RawRow :=
  ⟨some "310-000-000", none, some "CLIENTE W", none, none, none, none, none⟩

def pC4w : RawRow :=
  ⟨none, some "2024-03-01", none, some "A-9", some "10", none, some "10", none⟩

def rowsC4w : List RawRow := [hdrC4w, pC4w]

def hdr9 : RawRow :=
  ⟨some "200-000-000", none, some "CLIENTE C", none, none, none, none, none⟩

def p9a : RawRow :=
  ⟨none, some "2024-02-01", none, some "A-1", some "10", none, some "510", none⟩

/-- The opening-balance row, placed after the first posting. -/
def ob9 : RawRow :=
  ⟨none, none, none, some "Saldo Inicial", none, none, some "500", none⟩

def p9b : RawRow :=
  ⟨none, some "2024-02-02", none, some "A-2", some "20", none, some "530", none⟩

def p9c : RawRow :=
  ⟨none, some "2024-02-03", none, some "A-3", none, some "5", some "525", none⟩

def rows9 : List RawRow := [hdr9, p9a, ob9, p9b, p9c]

/-- A summary matching none of the three classification predicates. -/
def sSetC10 : RefSummary := ⟨"100-000-000", "700", 100, 100, 0⟩

set_option maxRecDepth 40000

/-! Helper lemmas shared by several claim theorems. -/

theorem fillnaSent_isSome (o : Option String) : (fillnaSent o).isSome = true := by
  cases o <;> rfl

theorem saldo_neto_of_mem (rows : List RawRow) (m : Mov) (h : m ∈ movsOf rows) :
    m.saldo_neto = m.cargos - m.abonos := by
  rcases List.mem_map.mp h with ⟨tr, _, rfl⟩
  rfl

theorem refnorm_isSome_of_mem (rows : List RawRow) (m : Mov)
    (h : m ∈ movsOf rows) : m.referencia_norm.isSome = true := by
  rcases List.mem_map.mp h with ⟨tr, _, rfl⟩
  exact fillnaSent_isSome _

theorem vivasOf_movsOf (rows : List RawRow) :
    vivasOf (movsOf rows) = movsOf rows :=
  List.filter_eq_self.mpr (fun m hm => refnorm_isSome_of_mem rows m hm)

theorem mem_dedupKeys {α : Type} [DecidableEq α] (a : α) (l : List α) :
    a ∈ dedupKeys l ↔ a ∈ l := by
  induction l with
  | nil => simp [dedupKeys]
  | cons b bs ih =>
      simp only [dedupKeys]
      by_cases hb : b ∈ dedupKeys bs
      · simp only [hb, if_true, List.mem_cons, ih]
        constructor
        · exact fun h => Or.inr h
        · rintro (rfl | h)
          · exact ih.mp hb
          · exact h
      · simp only [hb, if_false, List.mem_cons, ih]

theorem lookup_map_pair (g : String → ℚ) (l : List String) (c : String)
    (h : c ∈ l) :
    List.lookup c (l.map (fun k => (k, g k))) = some (g c) := by
  induction l with
  | nil => cases h
  | cons a as ih =>
      by_cases hca : c = a
      · subst hca
        simp [List.lookup]
      · rcases List.mem_cons.mp h with rfl | hmem
        · exact absurd rfl hca
        · have hb : (c == a) = false := beq_eq_false_iff_ne.mpr hca
          simpa [List.lookup, hb] using ih hmem

/-! Claim theorems. -/

/-- C7: the reference normalizer satisfies all four spec examples —
the payment-style rule extracts "2796" from "Ap. Pago Cte. 1078 F. 2796",
the invoice-style rule extracts "2796" from "Factura de Cliente A-2796",
the empty and the missing reference both yield the sentinel after the
fill step, and the last-digit-run fallback extracts "55" from "Misc 55". -/
theorem C7_normalizer_examples :
    normalizar_referencia_base (some "Ap. Pago Cte. 1078 F. 2796") = some "2796" ∧
    normalizar_referencia_base (some "Factura de Cliente A-2796") = some "2796" ∧
    fillnaSent (normalizar_referencia_base (some "")) = some SENTINEL ∧
    fillnaSent (normalizar_referencia_base none) = some SENTINEL ∧
    normalizar_referencia_base (some "Misc 55") = some "55" := by
  decide

/-- C6, counterexample: the textual placeholders "nan", "none", "null"
are not mapped to the sentinel by `normalizar_referencia_base` — `pd.isna`
is false on a non-empty string, so they fall through to the verbatim
branch and come back uppercased as literal keys. -/
theorem C6_counterexample :
    normalizar_referencia_base (some "nan") = some "NAN" ∧
    normalizar_referencia_base (some "none") = some "NONE" ∧
    normalizar_referencia_base (some "null") = some "NULL" ∧
    fillnaSent (normalizar_referencia_base (some "nan")) ≠ some SENTINEL := by
  decide

/-- C6, amended: the normalizer returns the null result (mapped to the
sentinel by the fill step) exactly for a missing reference and for a
reference that is blank after stripping; the textual placeholders are not
special-cased and yield uppercased literal keys. -/
theorem C6_amended :
    normalizar_referencia_base none = none ∧
    (∀ s : String, pyStrip s = "" → normalizar_referencia_base (some s) = none) ∧
    fillnaSent none = some SENTINEL ∧
    normalizar_referencia_base (some "nan") = some "NAN" ∧
    normalizar_referencia_base (some "none") = some "NONE" ∧
    normalizar_referencia_base (some "null") = some "NULL" := by
  refine ⟨rfl, ?_, rfl, by decide, by decide, by decide⟩
  intro s h
  simp [normalizar_referencia_base, h]

/-- C6, witness: the blank-after-strip case of the amended claim at a
concrete input. -/
theorem C6_amended_witness : normalizar_referencia_base (some "   ") = none :=
  C6_amended.2.1 "   " (by decide)

/-- C8: the reconciliation classifier returns the balanced status
exactly when the absolute discrepancy is at most the tolerance 1.0 and
the unexplained-difference status otherwise; a discrepancy of exactly
1.00 is balanced, 1.01 is not; and every audit row's status is the
classifier applied to its discrepancy. -/
theorem C8_tolerance_boundary :
    (∀ d : ℚ, clasificar d = "🟢 OK" ↔ |d| ≤ UMBRAL_TOLERANCIA) ∧
    (∀ d : ℚ, clasificar d = "🔴 Diferencia No Explicada" ↔
      ¬ |d| ≤ UMBRAL_TOLERANCIA) ∧
    clasificar 1 = "🟢 OK" ∧
    clasificar (1.01 : ℚ) = "🔴 Diferencia No Explicada" ∧
    ∀ (movs : List Mov) (resumen : List Resumen),
      (analizar_saldos movs resumen).all
        (fun a => a.estado == clasificar a.diferencia) = true := by
  refine ⟨?_, ?_, by decide, by with_unfolding_all decide, ?_⟩
  · intro d
    unfold clasificar
    split_ifs with h
    · exact iff_of_true rfl h
    · exact iff_of_false (by decide) h
  · intro d
    unfold clasificar
    split_ifs with h
    · exact iff_of_false (by decide) (not_not_intro h)
    · exact iff_of_true rfl h
  · intro movs resumen
    rw [List.all_eq_true]
    intro a ha
    simp only [analizar_saldos] at ha
    rcases List.mem_map.mp ha with ⟨r, _, rfl⟩
    exact beq_self_eq_true _

/-- C2: on an input holding a charge of 1000 for reference key "500" on
account "104-001-001" and a payment of 1000 for the same key on account
"104-001-002", the Cross-Reference Detector reports exactly one group,
for key "500", spanning both accounts. -/
theorem C2_cross_reference_scenario :
    crossRefDetector (movsOf rowsC2) =
      [("500", [⟨"104-001-001", 1000, 0⟩, ⟨"104-001-002", 0, 1000⟩])] := by
  with_unfolding_all decide

/-- C1, counterexample: a row with a nonzero charge whose date cell
fails the ISO pattern produces no posting and appears in no separately
reported set — the engine has no phantom-row output, so the row is
silently dropped, contradicting the claim that every monetary row lands
in exactly one of postings / phantom rows. -/
theorem C1_counterexample :
    toNumericCell badC1.c4 = some 500 ∧
    matchFecha (cellStr badC1.c1) = false ∧
    movsOf rowsC1 = [] ∧
    movsSinReferencia (movsOf rowsC1) = [] := by
  decide

/-- C3, counterexample: a sentinel-keyed (account, reference) summary
with a positive charge total and a positive net passes the pending
filter — `facturas_pend` does not exclude the sentinel key, contradicting
the claim that all three filters exclude it. -/
theorem C3_counterexample :
    (facturasPend (resumenReferencias (movsOf rowsC3))).map
      (fun s => s.referencia_norm) = [SENTINEL] := by
  with_unfolding_all decide

/-- C4, counterexample: an input with an account-header row (and its
opening balance) but no posting rows yields an empty reconciliation
table — the account receives no discrepancy row at all, contradicting
the claim that every account-header row yields one. -/
theorem C4_counterexample :
    isCuenta hdrC4 = true ∧
    analizar_saldos (movsOf rowsC4) (resumenOf rowsC4) = [] := by
  decide

/-- C3, amended: of the three classification filters only the
orphan-payment one excludes the sentinel key; membership in the pending
and overpaid filters is exactly the amount predicate together with
membership in the summary table, with no condition on the key. -/
theorem C3_amended (rs : List RefSummary) (s : RefSummary) :
    (s ∈ pagosHuerfanos rs → s.referencia_norm ≠ SENTINEL) ∧
    (s ∈ facturasPend rs ↔
      s ∈ rs ∧ 0 < s.total_cargos ∧ (0.01 : ℚ) < s.saldo_pendiente) ∧
    (s ∈ pagosExcedentes rs ↔
      s ∈ rs ∧ 0 < s.total_cargos ∧ s.saldo_pendiente < -(0.01 : ℚ)) := by
  refine ⟨?_, ?_, ?_⟩
  · intro hmem
    have hp := (List.mem_filter.mp hmem).2
    simp only [esPagoHuerfano, Bool.and_eq_true, bne_iff_ne] at hp
    exact hp.2
  · simp [facturasPend, List.mem_filter, esFacturaPend, and_assoc]
  · simp [pagosExcedentes, List.mem_filter, esPagoExcedente, and_assoc]

/-- C3, witness: the amended pending-filter characterization applied to
the concrete sentinel-keyed summary with charge 100 and net 100, which
the pending filter accepts. -/
theorem C3_amended_witness : sPendC3 ∈ facturasPend [sPendC3] :=
  (C3_amended [sPendC3] sPendC3).2.1.mpr
    ⟨List.mem_singleton.mpr rfl, by norm_num [sPendC3], by norm_num [sPendC3]⟩

/-- C10: the three classification filters are pairwise disjoint — no
summary row is accepted by two of pending, orphan payment, overpaid —
and the settled set is exactly the summaries accepted by none of the
three. -/
theorem C10_disjoint_settled (rs : List RefSummary) (s : RefSummary) :
    ¬ (s ∈ facturasPend rs ∧ s ∈ pagosHuerfanos rs) ∧
    ¬ (s ∈ facturasPend rs ∧ s ∈ pagosExcedentes rs) ∧
    ¬ (s ∈ pagosHuerfanos rs ∧ s ∈ pagosExcedentes rs) ∧
    (s ∈ settledOf rs ↔
      s ∈ rs ∧ s ∉ facturasPend rs ∧ s ∉ pagosHuerfanos rs ∧
        s ∉ pagosExcedentes rs) := by
  refine ⟨?_, ?_, ?_, ?_⟩
  · rintro ⟨ha, hb⟩
    have pa := (List.mem_filter.mp ha).2
    have pb := (List.mem_filter.mp hb).2
    simp only [esFacturaPend, Bool.and_eq_true, decide_eq_true_eq] at pa
    simp only [esPagoHuerfano, Bool.and_eq_true, decide_eq_true_eq] at pb
    exact absurd pb.1.1 (ne_of_gt pa.1)
  · rintro ⟨ha, hb⟩
    have pa := (List.mem_filter.mp ha).2
    have pb := (List.mem_filter.mp hb).2
    simp only [esFacturaPend, Bool.and_eq_true, decide_eq_true_eq] at pa
    simp only [esPagoExcedente, Bool.and_eq_true, decide_eq_true_eq] at pb
    have h1 := pa.2
    have h2 := pb.2
    linarith
  · rintro ⟨ha, hb⟩
    have pa := (List.mem_filter.mp ha).2
    have pb := (List.mem_filter.mp hb).2
    simp only [esPagoHuerfano, Bool.and_eq_true, decide_eq_true_eq] at pa
    simp only [esPagoExcedente, Bool.and_eq_true, decide_eq_true_eq] at pb
    exact absurd pa.1.1 (ne_of_gt pb.1)
  · constructor
    · intro h
      obtain ⟨hrs, hp⟩ := List.mem_filter.mp h
      simp only [Bool.and_eq_true, Bool.not_eq_true'] at hp
      refine ⟨hrs, ?_, ?_, ?_⟩
      · intro hc
        exact absurd (List.mem_filter.mp hc).2 (by simp [hp.1.1])
      · intro hc
        exact absurd (List.mem_filter.mp hc).2 (by simp [hp.1.2])
      · intro hc
        exact absurd (List.mem_filter.mp hc).2 (by simp [hp.2])
    · rintro ⟨hrs, h1, h2, h3⟩
      refine List.mem_filter.mpr ⟨hrs, ?_⟩
      have e1 : esFacturaPend s = false := by
        by_contra hx
        exact h1 (List.mem_filter.mpr ⟨hrs, by simpa using hx⟩)
      have e2 : esPagoHuerfano s = false := by
        by_contra hx
        exact h2 (List.mem_filter.mpr ⟨hrs, by simpa using hx⟩)
      have e3 : esPagoExcedente s = false := by
        by_contra hx
        exact h3 (List.mem_filter.mpr ⟨hrs, by simpa using hx⟩)
      simp [e1, e2, e3]

/-- C10, witness: the settled characterization applied to a concrete
summary (charge 100, payment 100, net 0) matching none of the three
filters. -/
theorem C10_witness : sSetC10 ∈ settledOf [sSetC10] :=
  (C10_disjoint_settled [sSetC10] sSetC10).2.2.2.mpr
    ⟨List.mem_singleton.mpr rfl,
      by with_unfolding_all decide,
      by with_unfolding_all decide,
      by with_unfolding_all decide⟩

/-- C4, amended: every account that has at least one posting (i.e. every
`groupby` key of the posting table) receives exactly one reconciliation
row, whose fields satisfy the discrepancy formulas by construction; the
step is a total function, so it never fails. Accounts with a header but
no postings are absent from the output (see the counterexample). -/
theorem C4_amended (rows : List RawRow) (k : String × String)
    (h : k ∈ resumenKeys (movsOf rows)) :
    ∃ a ∈ analizar_saldos (movsOf rows) (resumenOf rows),
      a.meta_codigo = k.1 ∧ a.meta_nombre = k.2 ∧
      a.saldo_calculado = a.meta_saldo_inicial + a.movimientos_netos ∧
      a.diferencia = a.saldo_final_aux - a.saldo_calculado ∧
      a.estado = clasificar a.diferencia := by
  have hr0 : ({ meta_codigo := k.1
                meta_nombre := k.2
                saldo_final_aux := lastSaldoAcum ((movsOf rows).filter (fun m =>
                  m.meta_codigo == some k.1 && m.meta_nombre == some k.2))
                meta_saldo_inicial := (lookupLast k.1 (dictOf rows)).getD 0 } :
      Resumen) ∈ resumenOf rows := by
    rw [resumenOf, resumenFrom]
    exact List.mem_map_of_mem _ h
  exact ⟨_, List.mem_map_of_mem _ hr0, rfl, rfl, rfl, rfl, rfl⟩

/-- C4, witness: the amended claim at a concrete input holding one
header and one posting for account "310-000-000". -/
theorem C4_amended_witness :
    ∃ a ∈ analizar_saldos (movsOf rowsC4w) (resumenOf rowsC4w),
      a.meta_codigo = "310-000-000" ∧ a.meta_nombre = "CLIENTE W" ∧
      a.saldo_calculado = a.meta_saldo_inicial + a.movimientos_netos ∧
      a.diferencia = a.saldo_final_aux - a.saldo_calculado ∧
      a.estado = clasificar a.diferencia :=
  C4_amended rowsC4w ("310-000-000", "CLIENTE W") (by decide)

/-- C5: the not-null filter applied before the per-account sum removes
no posting (the sentinel fill makes every normalized reference
non-null), and consequently every audit row's net-movements figure is
the sum of charge minus payment over all of that account's postings,
sentinel-referenced ones included. -/
theorem C5_net_includes_unreferenced (rows : List RawRow) :
    vivasOf (movsOf rows) = movsOf rows ∧
    (analizar_saldos (movsOf rows) (resumenOf rows)).all (fun a =>
      a.movimientos_netos ==
        (((movsOf rows).filter (fun m => m.meta_codigo == some a.meta_codigo)).map
          (fun m => m.cargos - m.abonos)).sum) = true := by
  refine ⟨vivasOf_movsOf rows, ?_⟩
  rw [List.all_eq_true]
  intro a ha
  simp only [analizar_saldos] at ha
  rcases List.mem_map.mp ha with ⟨r, hr, rfl⟩
  rw [beq_iff_eq]
  show (List.lookup r.meta_codigo (saldoFacturas (vivasOf (movsOf rows)))).getD 0 = _
  rw [vivasOf_movsOf]
  rw [resumenOf, resumenFrom] at hr
  rcases List.mem_map.mp hr with ⟨k, hk, rfl⟩
  have hk2 := (mem_dedupKeys k _).mp hk
  rcases List.mem_filterMap.mp hk2 with ⟨m, hm, hmk⟩
  have hcode : m.meta_codigo = some k.1 := by
    rcases hmc : m.meta_codigo with _ | c
    · rw [hmc] at hmk
      simp at hmk
    · rcases hmn : m.meta_nombre with _ | n
      · rw [hmc, hmn] at hmk
        simp at hmk
      · rw [hmc, hmn] at hmk
        simp only [Option.some.injEq] at hmk
        rw [← hmk]
  have hc : k.1 ∈ dedupKeys ((movsOf rows).filterMap (fun m => m.meta_codigo)) :=
    (mem_dedupKeys _ _).mpr (List.mem_filterMap.mpr ⟨m, hm, hcode⟩)
  show (List.lookup k.1 (saldoFacturas (movsOf rows))).getD 0 = _
  rw [saldoFacturas, lookup_map_pair _ _ _ hc, Option.getD_some]
  refine congrArg List.sum ?_
  refine List.map_congr_left ?_
  intro x hx
  exact saldo_neto_of_mem rows x (List.mem_of_mem_filter hx)

/-! Structure lemmas about the forward-fill scan, for C1 and C9. -/

theorem tagRows_append (xs : List RawRow) :
    ∀ (c n : Option String) (ys : List RawRow),
      tagRows c n (xs ++ ys) =
        tagRows c n xs ++ tagRows (ffillEndC c xs) (ffillEndN n xs) ys := by
  induction xs with
  | nil => intro c n ys; rfl
  | cons x xs ih =>
      intro c n ys
      simp only [List.cons_append, tagRows, List.append_eq]
      rw [ih]
      simp [ffillEndC, ffillEndN, List.foldl]

theorem tagRows_cons_nonheader (c n : Option String) (r : RawRow)
    (rs : List RawRow) (h : isCuenta r = false) :
    tagRows c n (r :: rs) = ⟨r, c, n⟩ :: tagRows c n rs := by
  simp [tagRows, h]

theorem tagRows_nonheaders (xs : List RawRow)
    (h : ∀ r ∈ xs, isCuenta r = false) :
    ∀ (c n : Option String) (l : List RawRow),
      tagRows c n (xs ++ l) = xs.map (fun r => ⟨r, c, n⟩) ++ tagRows c n l := by
  induction xs with
  | nil => intro c n l; rfl
  | cons x xs ih =>
      intro c n l
      have hx : isCuenta x = false := h x (List.mem_cons_self x xs)
      simp only [List.cons_append, tagRows, hx, Bool.false_eq_true, if_false,
        List.map_cons, List.append_eq]
      rw [ih (fun r hr => h r (List.mem_cons_of_mem x hr))]

theorem saldosDict_append (a b : List TaggedRow) :
    saldosDict (a ++ b) = saldosDict a ++ saldosDict b := by
  simp [saldosDict, List.filterMap_append]

theorem saldosDict_cons_skip (tr : TaggedRow) (trs : List TaggedRow)
    (h : containsSaldoIni (cellStr tr.row.c3) = false) :
    saldosDict (tr :: trs) = saldosDict trs := by
  simp [saldosDict, h]

theorem saldosDict_cons_keep (tr : TaggedRow) (trs : List TaggedRow) (q : ℚ)
    (h : containsSaldoIni (cellStr tr.row.c3) = true)
    (h2 : toNumericCell tr.row.c6 = some q) :
    saldosDict (tr :: trs) = (tr.meta_codigo, q) :: saldosDict trs := by
  simp [saldosDict, h, h2]

/-- C1, amended: a monetary row failing the date-prefix test is silently
dropped — deleting it from the input changes neither the posting table,
nor the sentinel-reference report (the one separately reported monetary
set, itself a subset of the postings), nor the reconciliation output.
The engine produces no phantom-row set. -/
theorem C1_amended (pre post : List RawRow) (r : RawRow)
    (h1 : isCuenta r = false) (h2 : containsSaldoIni (cellStr r.c3) = false)
    (h3 : matchFecha (cellStr r.c1) = false) :
    movsOf (pre ++ r :: post) = movsOf (pre ++ post) ∧
    movsSinReferencia (movsOf (pre ++ r :: post)) =
      movsSinReferencia (movsOf (pre ++ post)) ∧
    resumenOf (pre ++ r :: post) = resumenOf (pre ++ post) ∧
    analizar_saldos (movsOf (pre ++ r :: post)) (resumenOf (pre ++ r :: post)) =
      analizar_saldos (movsOf (pre ++ post)) (resumenOf (pre ++ post)) := by
  have htag : taggedOf (pre ++ r :: post) =
      tagRows none none pre ++
        (⟨r, ffillEndC none pre, ffillEndN none pre⟩ : TaggedRow) ::
          tagRows (ffillEndC none pre) (ffillEndN none pre) post := by
    rw [taggedOf, tagRows_append, tagRows_cons_nonheader _ _ _ _ h1]
  have htag2 : taggedOf (pre ++ post) =
      tagRows none none pre ++
        tagRows (ffillEndC none pre) (ffillEndN none pre) post := by
    rw [taggedOf, tagRows_append]
  have hdict : dictOf (pre ++ r :: post) = dictOf (pre ++ post) := by
    rw [dictOf, dictOf, htag, htag2, saldosDict_append,
      saldosDict_cons_skip _ _ h2, saldosDict_append]
  have hmovs : movsOf (pre ++ r :: post) = movsOf (pre ++ post) := by
    rw [movsOf, movsOf, htag, htag2, hdict]
    simp [List.filter_append, List.filter_cons, h3]
  refine ⟨hmovs, by rw [hmovs], ?_, ?_⟩
  · rw [resumenOf, resumenOf, hmovs, hdict]
  · rw [hmovs, resumenOf, resumenOf, hmovs, hdict]

/-- C1, witness: the amended claim instantiated at a concrete input —
inserting the dated-less monetary row between the header and a good
posting leaves the posting table unchanged. -/
theorem C1_amended_witness : movsOf rowsC1with = movsOf rowsC1without :=
  (C1_amended [hdrC1] [pC1w] badC1 (by decide) (by decide) (by decide)).1

/-- C9: with a header row followed by a block of non-header rows holding
one opening-balance row anywhere in the block, every posting of the
block resolves to that opening balance — in particular the postings that
precede the opening-balance row in raw order, because the balance is
associated to the account code in a dictionary built over the whole
input before being mapped back onto every row. -/
theorem C9_opening_balance (xs ys : List RawRow) (hdr ob : RawRow) (v : ℚ)
    (hhdr : isCuenta hdr = true)
    (hhdr2 : containsSaldoIni (cellStr hdr.c3) = false)
    (hxs : ∀ r ∈ xs, isCuenta r = false ∧ containsSaldoIni (cellStr r.c3) = false)
    (hys : ∀ r ∈ ys, isCuenta r = false ∧ containsSaldoIni (cellStr r.c3) = false)
    (hob : isCuenta ob = false)
    (hob2 : containsSaldoIni (cellStr ob.c3) = true)
    (hobv : toNumericCell ob.c6 = some v) :
    ∀ m ∈ movsOf (hdr :: xs ++ ob :: ys), m.meta_saldo_inicial = v := by
  rcases hc0 : hdr.c0 with _ | code
  · exfalso
    rw [isCuenta, hc0] at hhdr
    exact absurd hhdr (by decide)
  have hys2 : ∀ (c n : Option String),
      tagRows c n ys = ys.map (fun r => (⟨r, c, n⟩ : TaggedRow)) := by
    intro c n
    have h := tagRows_nonheaders ys (fun r hr => (hys r hr).1) c n []
    simpa [tagRows] using h
  have htag : taggedOf (hdr :: xs ++ ob :: ys) =
      (⟨hdr, some code, ffillStep none hdr.c2⟩ : TaggedRow) ::
        (xs.map (fun r => (⟨r, some code, ffillStep none hdr.c2⟩ : TaggedRow)) ++
          (⟨ob, some code, ffillStep none hdr.c2⟩ : TaggedRow) ::
            ys.map (fun r =>
              (⟨r, some code, ffillStep none hdr.c2⟩ : TaggedRow))) := by
    rw [taggedOf]
    show tagRows none none (hdr :: (xs ++ ob :: ys)) = _
    rw [tagRows]
    simp only [hhdr, if_true, hc0, ffillStep]
    rw [tagRows_nonheaders xs (fun r hr => (hxs r hr).1),
      tagRows_cons_nonheader _ _ _ _ hob, hys2]
  have hxs0 : saldosDict (xs.map (fun r =>
      (⟨r, some code, ffillStep none hdr.c2⟩ : TaggedRow))) = [] := by
    rw [saldosDict]
    refine List.filterMap_eq_nil_iff.mpr ?_
    intro tr htr
    rcases List.mem_map.mp htr with ⟨r, hr, rfl⟩
    simp [(hxs r hr).2]
  have hys0 : saldosDict (ys.map (fun r =>
      (⟨r, some code, ffillStep none hdr.c2⟩ : TaggedRow))) = [] := by
    rw [saldosDict]
    refine List.filterMap_eq_nil_iff.mpr ?_
    intro tr htr
    rcases List.mem_map.mp htr with ⟨r, hr, rfl⟩
    simp [(hys r hr).2]
  have hdict : dictOf (hdr :: xs ++ ob :: ys) = [(some code, v)] := by
    rw [dictOf, htag, saldosDict_cons_skip _ _ hhdr2, saldosDict_append, hxs0,
      saldosDict_cons_keep _ _ v hob2 hobv, hys0]
    rfl
  intro m hm
  simp only [movsOf] at hm
  rcases List.mem_map.mp hm with ⟨tr, htr, rfl⟩
  have htr2 := List.mem_of_mem_filter htr
  rw [htag] at htr2
  have hcode : tr.meta_codigo = some code := by
    rcases List.mem_cons.mp htr2 with rfl | htr3
    · rfl
    rcases List.mem_append.mp htr3 with h4 | h4
    · rcases List.mem_map.mp h4 with ⟨r2, _, rfl⟩
      rfl
    rcases List.mem_cons.mp h4 with rfl | h5
    · rfl
    rcases List.mem_map.mp h5 with ⟨r2, _, rfl⟩
    rfl
  show mapSaldoInicial (dictOf (hdr :: xs ++ ob :: ys)) tr.meta_codigo = v
  rw [hcode, hdict]
  simp [mapSaldoInicial, lookupLast]

/-- C9, witness: the concrete spec scenario — header for "200-000-000",
a posting, then the opening-balance row (500), then two more postings;
all three postings carry opening balance 500. -/
theorem C9_opening_balance_witness :
    (movsOf rows9).all (fun m => m.meta_saldo_inicial == 500) = true := by
  rw [List.all_eq_true]
  intro m hm
  have h := C9_opening_balance [p9a] [p9b, p9c] hdr9 ob9 500
    (by decide) (by decide) (by decide) (by decide) (by decide) (by decide)
    (by decide) m hm
  simpa using h

end AuditorSaldos
